import Mathlib

/-!
Shallow embedding of the MIDI playback engine (audio.rs) of the sona
repository, together with theorems checking the specification claims.

Floating point time values of the source (f64 seconds) are modelled by
exact rational arithmetic; rounding to the nearest integer sample uses
Mathlib round, which agrees with the source rounding on the nonnegative
values that arise here.  Machine integers (u64 counters, u32 rates) are
modelled by Nat; none of the verified paths can overflow their ranges.
-/

/-- Decoded MIDI channel message, as produced by the midly decoder.
Keys are 7-bit, modelled as Fin 128 to match the fixed 128-entry
active-note table of parse_smf. -/
inductive MidiMessage where
  | note_off (key : Fin 128) (vel : Nat)
  | note_on (key : Fin 128) (vel : Nat)
  | aftertouch (key : Fin 128) (vel : Nat)
  | controller (ctrl : Nat) (value : Nat)
  | program_change (program : Nat)
  | channel_aftertouch (vel : Nat)
  | pitch_bend (bend : Nat)
deriving DecidableEq

/-- Kind of a decoded track event: a channel message, a tempo meta event,
or any other event (ignored by the engine). -/
inductive TrackEventKind where
  | midi (channel : Nat) (message : MidiMessage)
  | meta_tempo (us : Nat)
  | meta_other
deriving DecidableEq

/-- A decoded track event: delta time in ticks plus its kind. -/
structure TrackEvent where
  delta : Nat
  kind : TrackEventKind
deriving DecidableEq

/-- Header timing of a standard MIDI file: tick-metrical or other. -/
inductive Timing where
  | metrical (ticks : Nat)
  | timecode
deriving DecidableEq

/-- A decoded standard MIDI file: header timing plus per-track events. -/
structure Smf where
  timing : Timing
  tracks : List (List TrackEvent)
deriving DecidableEq

/-- Event sent to the synthesis engine (oxisynth MidiEvent). -/
inductive MidiEvent where
  | note_on (channel key vel : Nat)
  | note_off (channel key : Nat)
  | control_change (channel ctrl value : Nat)
  | program_change (channel program_id : Nat)
  | channel_pressure (channel value : Nat)
  | polyphonic_key_pressure (channel key value : Nat)
  | pitch_bend (channel value : Nat)
deriving DecidableEq

/-- Translation of midi_message_to_event: maps a decoded channel message
to the synthesis-engine event. -/
def midi_message_to_event (channel : Nat) (message : MidiMessage) : MidiEvent :=
  match message with
  | .note_off key _ => .note_off channel key.val
  | .note_on key vel => .note_on channel key.val vel
  | .aftertouch key vel => .polyphonic_key_pressure channel key.val vel
  | .controller ctrl value => .control_change channel ctrl value
  | .program_change program => .program_change channel program
  | .channel_aftertouch vel => .channel_pressure channel vel
  | .pitch_bend bend => .pitch_bend channel bend

/-- One tempo segment: from build_tempo_segments. -/
structure TempoSegment where
  tick : Nat
  us_per_beat : Nat
  seconds_at_tick : ℚ
deriving DecidableEq

/-- Stable insertion keyed by a Nat: an element is placed after every
element with a key less than or equal to its own, matching the behavior
of the stable sort_by_key of the source. -/
def ordered_insert_by {α : Type} (key : α → Nat) (a : α) : List α → List α
  | [] => [a]
  | b :: l => if key a ≤ key b then a :: b :: l else b :: ordered_insert_by key a l

/-- Stable sort by a Nat key, modelling the stable Vec sort_by_key. -/
def stable_sort_by {α : Type} (key : α → Nat) (l : List α) : List α :=
  l.foldr (ordered_insert_by key) []

/-- Loop body of build_tempo_segments: the current open segment is emitted
when the next event opens a new one; an event at the same tick overwrites
the tempo of the current segment in place. -/
def build_tempo_segments_aux (current : TempoSegment) (ticks_per_beat : ℚ) :
    List (Nat × Nat) → List TempoSegment
  | [] => [current]
  | (tick, us_per_beat) :: rest =>
    if tick = current.tick then
      build_tempo_segments_aux { current with us_per_beat := us_per_beat } ticks_per_beat rest
    else
      let delta_ticks := tick - current.tick
      let seconds_delta : ℚ :=
        ((delta_ticks : ℚ) * (current.us_per_beat : ℚ)) / (1000000 * ticks_per_beat)
      current :: build_tempo_segments_aux
        { tick := tick, us_per_beat := us_per_beat,
          seconds_at_tick := current.seconds_at_tick + seconds_delta }
        ticks_per_beat rest

/-- Translation of build_tempo_segments: sort the tempo events by tick,
seed the map with the default 500000 microseconds per beat at tick 0,
then integrate segment start times. -/
def build_tempo_segments (tempo_events : List (Nat × Nat)) (ticks_per_beat : ℚ) :
    List TempoSegment :=
  build_tempo_segments_aux { tick := 0, us_per_beat := 500000, seconds_at_tick := 0 }
    ticks_per_beat (stable_sort_by Prod.fst tempo_events)

/-- Scan of ticks_to_seconds: keep the last segment whose start tick is
at most the queried tick. -/
def find_active (tick : Nat) (active : TempoSegment) : List TempoSegment → TempoSegment
  | [] => active
  | seg :: rest => if tick < seg.tick then active else find_active tick seg rest

/-- Translation of ticks_to_seconds: locate the active segment and
linearly extrapolate with its tempo. -/
def ticks_to_seconds (tick : Nat) (segments : List TempoSegment) (ticks_per_beat : ℚ) : ℚ :=
  match segments with
  | [] => 0
  | s0 :: rest =>
    let active := find_active tick s0 rest
    active.seconds_at_tick +
      (((tick - active.tick : Nat) : ℚ) * (active.us_per_beat : ℚ)) / (1000000 * ticks_per_beat)

/-- Result of parse_smf. -/
structure ParsedMidi where
  events : List (Nat × MidiEvent)
  tempo_events : List (Nat × Nat)
  max_tick : Nat
  max_note_tick : Nat
deriving DecidableEq

/-- Per-track mutable state of parse_smf: absolute tick of the last
event, and the per-key stacks of open note ticks. -/
structure TrackAcc where
  current_tick : Nat
  last_tick : Nat
  active_notes : Fin 128 → List Nat

/-- Accumulated output of parse_smf across tracks. -/
structure ParseAcc where
  all_events : List (Nat × MidiEvent)
  tempo_events : List (Nat × Nat)
  max_tick : Nat
  max_note_tick : Nat

/-- One iteration of the inner event loop of parse_smf: advance the
absolute tick, record the raw tick maximum, do note accounting (a NoteOn
with velocity 0 is accounted as a note off), and collect the event. -/
def process_track_event (acc : ParseAcc × TrackAcc) (ev : TrackEvent) : ParseAcc × TrackAcc :=
  let ct := acc.2.current_tick + ev.delta
  let g0 := { acc.1 with max_tick := max acc.1.max_tick ct }
  let t0 := { acc.2 with current_tick := ct, last_tick := ct }
  match ev.kind with
  | .midi channel message =>
    let tg :=
      match message with
      | .note_off key _ =>
        match t0.active_notes key with
        | [] => (t0, g0)
        | _ :: rest =>
          ({ t0 with active_notes := Function.update t0.active_notes key rest },
           { g0 with max_note_tick := max g0.max_note_tick ct })
      | .note_on key vel =>
        if 0 < vel then
          ({ t0 with active_notes := Function.update t0.active_notes key (ct :: t0.active_notes key) },
           { g0 with max_note_tick := max g0.max_note_tick ct })
        else
          match t0.active_notes key with
          | [] => (t0, g0)
          | _ :: rest =>
            ({ t0 with active_notes := Function.update t0.active_notes key rest },
             { g0 with max_note_tick := max g0.max_note_tick ct })
      | _ => (t0, g0)
    ({ tg.2 with all_events := tg.2.all_events ++ [(ct, midi_message_to_event channel message)] },
     tg.1)
  | .meta_tempo us => ({ g0 with tempo_events := g0.tempo_events ++ [(ct, us)] }, t0)
  | .meta_other => (g0, t0)

/-- One iteration of the track loop of parse_smf: process the events of
the track, then force-close dangling notes at the final event tick. -/
def process_track (g : ParseAcc) (track : List TrackEvent) : ParseAcc :=
  let start : TrackAcc := { current_tick := 0, last_tick := 0, active_notes := fun _ => [] }
  let r := track.foldl process_track_event (g, start)
  if (List.finRange 128).any (fun key => !(r.2.active_notes key).isEmpty) then
    { r.1 with max_note_tick := max r.1.max_note_tick r.2.last_tick }
  else r.1

/-- Translation of parse_smf: fold over the tracks, then sort the
collected events by tick (stably). -/
def parse_smf (smf : Smf) : ParsedMidi :=
  let g := smf.tracks.foldl process_track
    { all_events := [], tempo_events := [], max_tick := 0, max_note_tick := 0 }
  { events := stable_sort_by Prod.fst g.all_events,
    tempo_events := g.tempo_events,
    max_tick := g.max_tick,
    max_note_tick := g.max_note_tick }

/-- A compiled playback event: source tick, absolute sample offset, and
the synthesis event. -/
structure MidiPlaybackEvent where
  tick : Nat
  sample : Nat
  event : MidiEvent
deriving DecidableEq

/-- A compiled schedule: events ordered by sample offset, the ruler end
tick, and the total sample count. -/
structure PlaybackSchedule where
  events : List MidiPlaybackEvent
  ruler_max_tick : Nat
  total_samples : Nat
deriving DecidableEq

/-- Seconds to nearest sample index, as the source rounding of
seconds * sample_rate (all values here are nonnegative, where Mathlib
round agrees with the round-half-away-from-zero of f64). -/
def seconds_to_sample (seconds : ℚ) (sample_rate : Nat) : Nat :=
  (round (seconds * (sample_rate : ℚ))).toNat

/-- Translation of build_playback_schedule_from_smf: parse, build the
tempo map, compile every event tick to a sample offset, stable-sort by
sample offset, and derive ruler_max_tick and total_samples. -/
def build_playback_schedule_from_smf (smf : Smf) (sample_rate : Nat) : PlaybackSchedule :=
  let parsed := parse_smf smf
  let ticks_per_beat : ℚ :=
    max (match smf.timing with
         | .metrical ticks => (ticks : ℚ)
         | .timecode => 480) 1
  let tempo_segments := build_tempo_segments parsed.tempo_events ticks_per_beat
  let playback : List MidiPlaybackEvent := parsed.events.map (fun p =>
    { tick := p.1,
      sample := seconds_to_sample (ticks_to_seconds p.1 tempo_segments ticks_per_beat) sample_rate,
      event := p.2 })
  let sorted := stable_sort_by MidiPlaybackEvent.sample playback
  let ruler_max_tick :=
    if 0 < parsed.max_note_tick then parsed.max_note_tick else parsed.max_tick
  let total_samples :=
    seconds_to_sample (ticks_to_seconds ruler_max_tick tempo_segments ticks_per_beat) sample_rate
  { events := sorted, ruler_max_tick := ruler_max_tick, total_samples := total_samples }

/-- Model of the oxisynth Synth handle: the currently installed
soundfont, the configured sample rate, and the log of events sent. -/
structure Synth where
  font : Option String
  sample_rate : Nat
  sent : List MidiEvent
deriving DecidableEq

/-- Sending one event to the synthesis engine appends it to the log. -/
def Synth.send (synth : Synth) (e : MidiEvent) : Synth :=
  { synth with sent := synth.sent ++ [e] }

/-- The burst emitted by send_all_notes_off: for each of the 16
channels, sustain off (64), all sound off (120), all notes off (123),
reset all controllers (121), then a NoteOff for each of the 128 keys. -/
def all_notes_off_events : List MidiEvent :=
  (List.range 16).flatMap (fun channel =>
    [MidiEvent.control_change channel 64 0,
     MidiEvent.control_change channel 120 0,
     MidiEvent.control_change channel 123 0,
     MidiEvent.control_change channel 121 0]
    ++ (List.range 128).map (fun key => MidiEvent.note_off channel key))

/-- Translation of send_all_notes_off: sends the silencing burst,
leaving the loaded soundfont in place. -/
def send_all_notes_off (synth : Synth) : Synth :=
  { synth with sent := synth.sent ++ all_notes_off_events }

/-- The environment visible to the audio thread: reading and decoding
the MIDI file at a path (None on read or parse failure, folding the two
failure sources of build_playback_schedule), and whether the soundfont
at a path opens and loads. -/
structure Env where
  midi : String → Option Smf
  font_ok : String → Bool

/-- The soundfont-loading step of the Play reload: on success the font
is installed, on failure the synth is untouched. -/
def load_soundfont (env : Env) (sf_path : String) (synth : Synth) : Synth :=
  if env.font_ok sf_path then { synth with font := some sf_path } else synth

/-- Translation of hard_reset_synth: replace the synth by a fresh one
at the given sample rate and reload the previously loaded soundfont. -/
def hard_reset_synth (env : Env) (sample_rate : Nat) (soundfont_path : Option String) : Synth :=
  let base : Synth := { font := none, sample_rate := sample_rate, sent := [] }
  match soundfont_path with
  | some path => if env.font_ok path then { base with font := some path } else base
  | none => base

/-- Translation of build_playback_schedule: read and parse the file,
then compile; any failure aborts. -/
def build_playback_schedule (env : Env) (midi_path : String) (sample_rate : Nat) :
    Option PlaybackSchedule :=
  (env.midi midi_path).map (fun smf => build_playback_schedule_from_smf smf sample_rate)

/-- A transport command, as received over the command queue. -/
inductive AudioCommand where
  | play (midi_path : String) (soundfont_path : String)
  | pause
  | stop
  | rewind
deriving DecidableEq

/-- The state owned by the audio thread: the installed schedule and
dispatch index, the play flag, the last loaded paths, the synth handle,
and the shared telemetry counters. -/
structure EngineState where
  playback_events : List MidiPlaybackEvent
  playback_index : Nat
  is_playing : Bool
  last_midi_path : Option String
  last_soundfont_path : Option String
  synth : Synth
  samples_played : Nat
  total_samples : Nat
  max_tick : Nat
  last_event_sample : Nat
  last_event_tick : Nat
  next_event_sample : Nat
  next_event_tick : Nat
deriving DecidableEq

/-- The reload condition of the Play command: the midi path differs
from the loaded one, or the soundfont path differs, or no schedule is
installed. -/
def should_reload (s : EngineState) (midi_path sf_path : String) : Bool :=
  decide (s.last_midi_path ≠ some midi_path) ||
  decide (s.last_soundfont_path ≠ some sf_path) ||
  s.playback_events.isEmpty

/-- Translation of the command dispatch loop of audio_thread: the
effect of processing one transport command on the engine state. -/
def process_command (env : Env) (sample_rate : Nat) (s : EngineState) (cmd : AudioCommand) :
    EngineState :=
  match cmd with
  | .play midi_path sf_path =>
    let soundfont_changed := decide (s.last_soundfont_path ≠ some sf_path)
    if should_reload s midi_path sf_path then
      let s1 := { s with is_playing := false, synth := send_all_notes_off s.synth }
      let s2 :=
        if soundfont_changed then { s1 with synth := load_soundfont env sf_path s1.synth } else s1
      match build_playback_schedule env midi_path sample_rate with
      | some schedule =>
        let nxt :=
          match schedule.events with
          | e :: _ => (e.sample, e.tick)
          | [] => (schedule.total_samples, schedule.ruler_max_tick)
        { s2 with
          playback_events := schedule.events,
          samples_played := 0,
          total_samples := schedule.total_samples,
          max_tick := schedule.ruler_max_tick,
          last_event_sample := 0,
          last_event_tick := 0,
          next_event_sample := nxt.1,
          next_event_tick := nxt.2,
          playback_index := 0,
          last_midi_path := some midi_path,
          last_soundfont_path := some sf_path,
          is_playing := true }
      | none => s2
    else { s with is_playing := true }
  | .pause => { s with is_playing := false, synth := send_all_notes_off s.synth }
  | .stop =>
    { s with is_playing := false, samples_played := 0, playback_index := 0,
             synth := hard_reset_synth env sample_rate s.last_soundfont_path }
  | .rewind =>
    { s with samples_played := 0, playback_index := 0,
             synth := hard_reset_synth env sample_rate s.last_soundfont_path }

/-- The inner while loop of the render callback: dispatch every not yet
dispatched event whose sample offset is due, advancing the index and
the last-event telemetry.  The argument list is the not yet dispatched
suffix of the schedule. -/
def dispatch_due_events (current_sample : Nat) :
    List MidiPlaybackEvent → Nat → Nat → Nat → Synth → Nat × Nat × Nat × Synth
  | [], index, lastS, lastT, synth => (index, lastS, lastT, synth)
  | e :: rest, index, lastS, lastT, synth =>
    if e.sample ≤ current_sample then
      dispatch_due_events current_sample rest (index + 1) e.sample e.tick (synth.send e.event)
    else (index, lastS, lastT, synth)

/-- The next-event telemetry published after dispatch: the next pending
event, or (total_samples, ruler_max_tick) once the schedule is
exhausted. -/
def next_telemetry (events : List MidiPlaybackEvent) (index total_samples max_tick : Nat) :
    Nat × Nat :=
  match events.drop index with
  | e :: _ => (e.sample, e.tick)
  | [] => (total_samples, max_tick)

/-- Translation of one frame of the render callback while the engine
state is observable: while playing, dispatch due events, publish the
last/next telemetry, and advance samples_played by one; while not
playing, nothing changes. -/
def render_frame (s : EngineState) : EngineState :=
  if s.is_playing then
    let r := dispatch_due_events s.samples_played
      (s.playback_events.drop s.playback_index) s.playback_index
      s.last_event_sample s.last_event_tick s.synth
    let nxt := next_telemetry s.playback_events r.1 s.total_samples s.max_tick
    { s with
      playback_index := r.1,
      last_event_sample := r.2.1,
      last_event_tick := r.2.2.1,
      synth := r.2.2.2,
      next_event_sample := nxt.1,
      next_event_tick := nxt.2,
      samples_played := s.samples_played + 1 }
  else s

/-- The concrete single-track file of the end-to-end numeric example:
NoteOn key 60 at tick 0, NoteOff key 60 at tick 120, 480 ticks per
beat, no tempo events. -/
def smf_c4 : Smf :=
  { timing := .metrical 480,
    tracks := [[{ delta := 0, kind := .midi 0 (.note_on 60 100) },
                { delta := 120, kind := .midi 0 (.note_off 60 0) }]] }

/-- Snapshot of the lock-free telemetry counters read by the Position
Query API (the atomic fields of AudioState). -/
structure AudioState where
  samples_played : Nat
  total_samples : Nat
  max_tick : Nat
  last_event_sample : Nat
  last_event_tick : Nat
  next_event_sample : Nat
  next_event_tick : Nat
deriving DecidableEq

/-- The tick estimate shared by current_tick and the ratio query:
linear interpolation between the last and next event, parameterized by
samples_played, with the parameter clamped to the unit interval; on a
degenerate segment the last event tick is returned unchanged. -/
def interp_tick (st : AudioState) : Nat :=
  if st.last_event_sample < st.next_event_sample ∧ st.last_event_tick ≤ st.next_event_tick then
    let denom : ℚ := ((st.next_event_sample - st.last_event_sample : Nat) : ℚ)
    let t : ℚ :=
      max 0 (min (((st.samples_played - st.last_event_sample : Nat) : ℚ) / denom) 1)
    (round ((st.last_event_tick : ℚ) +
      t * ((st.next_event_tick - st.last_event_tick : Nat) : ℚ))).toNat
  else st.last_event_tick

/-- Translation of AudioState current_tick: None while no schedule has
ever loaded (max_tick 0), otherwise the interpolated tick clamped to
max_tick. -/
def AudioState.current_tick (st : AudioState) : Option Nat :=
  if st.max_tick = 0 then none else some (min (interp_tick st) st.max_tick)

/-- Translation of the normalized position query of AudioState: None
while no schedule has ever loaded, otherwise the interpolated tick
divided by max_tick, clamped to the unit interval. -/
def AudioState.current_tick_ratio_q (st : AudioState) : Option ℚ :=
  if st.max_tick = 0 then none
  else some (max 0 (min (((interp_tick st : Nat) : ℚ) / (st.max_tick : ℚ)) 1))

/-- A concrete telemetry snapshot whose last event tick exceeds the
ruler length. -/
def st_c6 : AudioState :=
  { samples_played := 0, total_samples := 10, max_tick := 3,
    last_event_sample := 0, last_event_tick := 5,
    next_event_sample := 0, next_event_tick := 0 }

/-- A concrete well-formed telemetry snapshot resting on its last
dispatched event. -/
def st_c6_w : AudioState :=
  { samples_played := 7, total_samples := 100, max_tick := 10,
    last_event_sample := 7, last_event_tick := 4,
    next_event_sample := 9, next_event_tick := 6 }

/-- A fresh engine state, as allocated at engine startup. -/
def init_engine (sample_rate : Nat) : EngineState :=
  { playback_events := [], playback_index := 0, is_playing := false,
    last_midi_path := none, last_soundfont_path := none,
    synth := { font := none, sample_rate := sample_rate, sent := [] },
    samples_played := 0, total_samples := 0, max_tick := 0,
    last_event_sample := 0, last_event_tick := 0,
    next_event_sample := 0, next_event_tick := 0 }

/-- A concrete engine state that is playing an installed schedule. -/
def engine_playing : EngineState :=
  { playback_events := [{ tick := 0, sample := 0, event := .note_on 0 60 100 }],
    playback_index := 1, is_playing := true,
    last_midi_path := some "a.mid", last_soundfont_path := some "f.sf2",
    synth := { font := some "f.sf2", sample_rate := 100, sent := [] },
    samples_played := 5, total_samples := 10, max_tick := 20,
    last_event_sample := 0, last_event_tick := 0,
    next_event_sample := 10, next_event_tick := 20 }

/-- An environment in which every MIDI file fails to read or parse. -/
def env_fail : Env :=
  { midi := fun _ => none, font_ok := fun _ => true }

/-- A concrete well-formed single-track file used by witnesses: a note
opened at tick 0 and closed at tick 48. -/
def smf_w : Smf :=
  { timing := .metrical 480,
    tracks := [[{ delta := 0, kind := .midi 0 (.note_on 60 100) },
                { delta := 48, kind := .midi 0 (.note_off 60 0) }]] }

/-- An environment that successfully decodes smf_w at path good.mid. -/
def env_w : Env :=
  { midi := fun path => if path = "good.mid" then some smf_w else none,
    font_ok := fun _ => true }

/-- Maximum of a list of naturals, 0 for the empty list. -/
def list_max (l : List Nat) : Nat := l.foldr max 0

/-- State of the specification-side note-closing machine: absolute
tick, per-key stacks of open note ticks, and the collected list of
note-closing ticks. -/
structure SpecNoteState where
  ct : Nat
  active : Fin 128 → List Nat
  closes : List Nat

/-- Specification-side reading of one track event: a NoteOff (or a
NoteOn of velocity 0) closes the most recently opened note on its key,
recording the current tick as a note-closing tick; a NoteOn of positive
velocity opens a note at the current tick. -/
def spec_close_step (st : SpecNoteState) (ev : TrackEvent) : SpecNoteState :=
  let ct := st.ct + ev.delta
  let st0 := { st with ct := ct }
  match ev.kind with
  | .midi _ message =>
    match message with
    | .note_off key _ =>
      match st0.active key with
      | [] => st0
      | _ :: rest =>
        { st0 with active := Function.update st0.active key rest, closes := st0.closes ++ [ct] }
    | .note_on key vel =>
      if 0 < vel then
        { st0 with active := Function.update st0.active key (ct :: st0.active key) }
      else
        match st0.active key with
        | [] => st0
        | _ :: rest =>
          { st0 with active := Function.update st0.active key rest, closes := st0.closes ++ [ct] }
    | _ => st0
  | _ => st0

/-- The note-closing ticks of one track per the specification: the
ticks recorded by the closing machine, plus, for each note still active
at the end of the track, the final event tick of the track. -/
def spec_track_closings (track : List TrackEvent) : List Nat :=
  let st := track.foldl spec_close_step { ct := 0, active := fun _ => [], closes := [] }
  st.closes ++ (((List.finRange 128).flatMap st.active).map (fun _ => st.ct))

/-- The maximum tick at which any note closes, per the specification
(0 when the source closes no note). -/
def spec_max_closing (smf : Smf) : Nat :=
  list_max (smf.tracks.flatMap spec_track_closings)

/-- The absolute ticks of the events of a track from a given start
tick: the running sums of the delta times. -/
def spec_abs_ticks_aux (ct : Nat) : List TrackEvent → List Nat
  | [] => []
  | ev :: rest => (ct + ev.delta) :: spec_abs_ticks_aux (ct + ev.delta) rest

/-- The maximum raw event tick across all tracks, per the
specification. -/
def spec_max_raw_tick (smf : Smf) : Nat :=
  list_max (smf.tracks.flatMap (spec_abs_ticks_aux 0))

/-- Whether the source contains at least one note (a NoteOn of positive
velocity). -/
def contains_note (smf : Smf) : Bool :=
  smf.tracks.any (fun track => track.any (fun ev =>
    match ev.kind with
    | .midi _ (.note_on _ vel) => decide (0 < vel)
    | _ => false))

/-- A concrete file containing one note that opens and closes at tick
0, followed by a controller event at tick 100: the maximum note-closing
tick is 0 while the maximum raw event tick is 100. -/
def smf_c2 : Smf :=
  { timing := .metrical 480,
    tracks := [[{ delta := 0, kind := .midi 0 (.note_on 60 100) },
                { delta := 0, kind := .midi 0 (.note_off 60 0) },
                { delta := 100, kind := .midi 0 (.controller 7 100) }]] }

/-- Well-formedness of the installed schedule assumed by the telemetry
invariant: events sorted by sample offset with nondecreasing ticks, and
every event within the published total_samples and ruler length. -/
def ScheduleOK (s : EngineState) : Prop :=
  s.playback_events.Pairwise (fun a b => a.sample ≤ b.sample ∧ a.tick ≤ b.tick) ∧
  ∀ e ∈ s.playback_events, e.sample ≤ s.total_samples ∧ e.tick ≤ s.max_tick

instance (s : EngineState) : Decidable (ScheduleOK s) := by
  unfold ScheduleOK; infer_instance

/-- The published-telemetry invariant: the next-event fields agree with
the pending event under the dispatch cursor (or with the exhausted pair
(total_samples, ruler_max_tick)), and dominate the last-event fields. -/
def TelemetryInv (s : EngineState) : Prop :=
  (s.next_event_sample, s.next_event_tick) =
    next_telemetry s.playback_events s.playback_index s.total_samples s.max_tick ∧
  s.last_event_sample ≤ s.next_event_sample ∧
  s.last_event_tick ≤ s.next_event_tick

instance (s : EngineState) : Decidable (TelemetryInv s) := by
  unfold TelemetryInv; infer_instance

/-- A concrete file whose final event (a controller change at tick 96)
lies beyond the last note-closing tick 48: its compiled sample offset
10 exceeds total_samples 5 at sample rate 100. -/
def smf_c7 : Smf :=
  { timing := .metrical 480,
    tracks := [[{ delta := 0, kind := .midi 0 (.note_on 60 100) },
                { delta := 48, kind := .midi 0 (.note_off 60 0) },
                { delta := 48, kind := .midi 0 (.controller 7 100) }]] }

/-- An environment that decodes smf_c7 at path c7.mid. -/
def env_c7 : Env :=
  { midi := fun path => if path = "c7.mid" then some smf_c7 else none,
    font_ok := fun _ => true }

/-- The engine right after loading smf_c7 from a fresh state. -/
def engine_c7 : EngineState :=
  process_command env_c7 100 (init_engine 100) (.play "c7.mid" "f.sf2")

/-- The engine right after loading the well-formed file smf_w from a
fresh state; its schedule satisfies ScheduleOK. -/
def engine_w : EngineState :=
  process_command env_w 100 (init_engine 100) (.play "good.mid" "f.sf2")

/-- The engine after rendering eleven frames of smf_c7: the frame at
samples_played 10 dispatches the controller event at sample 10 and then
publishes the exhausted pair (5, 48). -/
def run_c7 : EngineState := render_frame^[11] engine_c7

/-- A valid MIDI file with no channel events: a single track holding
one non-tempo meta event at tick 7.  It decodes successfully and
compiles to an empty schedule (with ruler_max_tick 7, the maximum raw
event tick). -/
def smf_empty : Smf :=
  { timing := .metrical 480, tracks := [[{ delta := 7, kind := .meta_other }]] }

/-- An environment that decodes smf_empty at path empty.mid. -/
def env_empty : Env :=
  { midi := fun path => if path = "empty.mid" then some smf_empty else none,
    font_ok := fun _ => true }

/-- The engine after loading empty.mid from a fresh state and rendering
three frames: the installed schedule is empty, the loaded paths match
empty.mid, and samples_played has advanced to 3. -/
def engine_empty : EngineState :=
  render_frame^[3] (process_command env_empty 100 (init_engine 100) (.play "empty.mid" "f.sf2"))

/-- A concrete mid-track parser state with one open note on key 60. -/
def t_c10 : TrackAcc :=
  { current_tick := 10, last_tick := 10,
    active_notes := Function.update (fun _ => []) 60 [5] }

/-- A concrete parse accumulator matching t_c10. -/
def g_c10 : ParseAcc :=
  { all_events := [], tempo_events := [], max_tick := 10, max_note_tick := 5 }

unseal Rat.mul Rat.add Rat.sub Rat.inv in
/-- C4: for the one-track file with NoteOn(key 60) at tick 0 and
NoteOff(key 60) at tick 120, ticks_per_beat 480, default tempo and
sample rate 48000, the schedule places the NoteOn at sample 0 and the
NoteOff at sample 6000, with ruler_max_tick 120 and total_samples 6000. -/
theorem c4_theorem :
    (build_playback_schedule_from_smf smf_c4 48000).events =
      [{ tick := 0, sample := 0, event := .note_on 0 60 100 },
       { tick := 120, sample := 6000, event := .note_off 0 60 }] ∧
    (build_playback_schedule_from_smf smf_c4 48000).ruler_max_tick = 120 ∧
    (build_playback_schedule_from_smf smf_c4 48000).total_samples = 6000 := by
  decide

/-- C5: for any tick, any ticks-per-beat of at least 1 and any tempo
event list whose built tempo map is the single constant segment of
T microseconds per beat from tick 0, ticks_to_seconds is exactly
tick * T / (1e6 * ticks_per_beat). -/
theorem c5_theorem (tempo_events : List (Nat × Nat)) (ticks_per_beat : ℚ) (T tick : Nat)
    (_h1 : 1 ≤ ticks_per_beat)
    (hseg : build_tempo_segments tempo_events ticks_per_beat =
      [{ tick := 0, us_per_beat := T, seconds_at_tick := 0 }]) :
    ticks_to_seconds tick (build_tempo_segments tempo_events ticks_per_beat) ticks_per_beat =
      ((tick : ℚ) * (T : ℚ)) / (1000000 * ticks_per_beat) := by
  rw [hseg]
  simp [ticks_to_seconds, find_active]

/-- Witness for C5: the empty tempo list yields the single default
segment of 500000 microseconds per beat, and tick 7 at 480 ticks per
beat maps to 7 * 500000 / (1e6 * 480) seconds. -/
theorem c5_witness :
    ticks_to_seconds 7 (build_tempo_segments [] 480) 480 =
      ((7 : Nat) : ℚ) * ((500000 : Nat) : ℚ) / (1000000 * 480) :=
  c5_theorem [] 480 500000 7 (by norm_num) rfl

/-- Shape of a Play command that triggers a reload and whose schedule
build succeeds: the schedule is installed, the cursor and telemetry are
reset, the paths are recorded, and the transport starts playing. -/
theorem play_reload_success (env : Env) (rate : Nat) (s : EngineState) (m sf : String)
    (sched : PlaybackSchedule)
    (hr : should_reload s m sf = true)
    (hb : build_playback_schedule env m rate = some sched) :
    process_command env rate s (.play m sf) =
      { playback_events := sched.events,
        playback_index := 0,
        is_playing := true,
        last_midi_path := some m,
        last_soundfont_path := some sf,
        synth := if decide (s.last_soundfont_path ≠ some sf) = true
                 then load_soundfont env sf (send_all_notes_off s.synth)
                 else send_all_notes_off s.synth,
        samples_played := 0,
        total_samples := sched.total_samples,
        max_tick := sched.ruler_max_tick,
        last_event_sample := 0,
        last_event_tick := 0,
        next_event_sample := (next_telemetry sched.events 0 sched.total_samples sched.ruler_max_tick).1,
        next_event_tick := (next_telemetry sched.events 0 sched.total_samples sched.ruler_max_tick).2 } := by
  simp only [process_command, hr, hb, if_true]
  by_cases hsf : decide (s.last_soundfont_path ≠ some sf) = true <;>
    simp [hsf, next_telemetry]

/-- Shape of a Play command that triggers a reload and whose MIDI read
or parse fails: the play flag is cleared and voices are silenced, but
the schedule, cursor and telemetry stay untouched. -/
theorem play_reload_fail (env : Env) (rate : Nat) (s : EngineState) (m sf : String)
    (hr : should_reload s m sf = true)
    (hb : build_playback_schedule env m rate = none) :
    process_command env rate s (.play m sf) =
      if decide (s.last_soundfont_path ≠ some sf) = true
      then { s with is_playing := false,
                    synth := load_soundfont env sf (send_all_notes_off s.synth) }
      else { s with is_playing := false, synth := send_all_notes_off s.synth } := by
  simp only [process_command, hr, hb, if_true]

/-- Shape of a Play command that does not trigger a reload: resume in
place, only the play flag changes. -/
theorem play_resume (env : Env) (rate : Nat) (s : EngineState) (m sf : String)
    (hr : should_reload s m sf = false) :
    process_command env rate s (.play m sf) = { s with is_playing := true } := by
  simp [process_command, hr]

/-- C1 (amended): a Play that triggers a reload and whose MIDI file
read or parse fails leaves the installed schedule, the dispatch index,
samples_played, all telemetry fields and the recorded paths unchanged,
and nothing starts playing; but the transport does not keep playing:
the play flag is cleared at the start of the reload attempt and stays
cleared after the failure. -/
theorem c1_theorem (env : Env) (rate : Nat) (s : EngineState) (m sf : String)
    (hfail : env.midi m = none) (hreload : should_reload s m sf = true) :
    (process_command env rate s (.play m sf)).playback_events = s.playback_events ∧
    (process_command env rate s (.play m sf)).playback_index = s.playback_index ∧
    (process_command env rate s (.play m sf)).samples_played = s.samples_played ∧
    (process_command env rate s (.play m sf)).total_samples = s.total_samples ∧
    (process_command env rate s (.play m sf)).max_tick = s.max_tick ∧
    (process_command env rate s (.play m sf)).last_event_sample = s.last_event_sample ∧
    (process_command env rate s (.play m sf)).last_event_tick = s.last_event_tick ∧
    (process_command env rate s (.play m sf)).next_event_sample = s.next_event_sample ∧
    (process_command env rate s (.play m sf)).next_event_tick = s.next_event_tick ∧
    (process_command env rate s (.play m sf)).last_midi_path = s.last_midi_path ∧
    (process_command env rate s (.play m sf)).last_soundfont_path = s.last_soundfont_path ∧
    (process_command env rate s (.play m sf)).is_playing = false := by
  have hb : build_playback_schedule env m rate = none := by
    rw [build_playback_schedule, hfail]; rfl
  rw [play_reload_fail env rate s m sf hreload hb]
  by_cases hsf : decide (s.last_soundfont_path ≠ some sf) = true <;> simp [hsf]

/-- Witness for C1: a concrete failing reload from a playing state. -/
theorem c1_witness :
    (process_command env_fail 100 engine_playing (.play "b.mid" "f.sf2")).samples_played =
      engine_playing.samples_played ∧
    (process_command env_fail 100 engine_playing (.play "b.mid" "f.sf2")).playback_events =
      engine_playing.playback_events ∧
    (process_command env_fail 100 engine_playing (.play "b.mid" "f.sf2")).is_playing = false := by
  have h := c1_theorem env_fail 100 engine_playing "b.mid" "f.sf2" rfl (by decide)
  exact ⟨h.2.2.1, h.1, h.2.2.2.2.2.2.2.2.2.2.2⟩

/-- Counterexample for C1 as stated: the claim asserts that a transport
that was Playing continues playing the old schedule uninterrupted when
a reload fails; on this concrete playing state with an installed
schedule, the failed reload leaves the play flag false. -/
theorem c1_counterexample :
    engine_playing.is_playing = true ∧
    engine_playing.playback_events ≠ [] ∧
    (process_command env_fail 100 engine_playing (.play "b.mid" "f.sf2")).is_playing = false := by
  decide

/-- C3 (amended): two consecutive Play commands with an identical path
pair and no intervening command, whose MIDI file decodes and compiles
to a non-empty schedule, do not rebuild or reset anything: the second
Play returns the state of the first with the play flag (already set)
re-asserted, with no cursor reset and no silencing burst.  A Play whose
midi path differs from the loaded one and whose file loads successfully
installs a fresh schedule and resets samples_played and the dispatch
index to 0.  (When the file compiles to an empty schedule the claim as
stated fails: every Play then re-triggers a full reload.) -/
theorem c3_theorem (env : Env) (rate : Nat) (s : EngineState) (m sf : String) (smf : Smf)
    (hmidi : env.midi m = some smf)
    (hne : (build_playback_schedule_from_smf smf rate).events ≠ []) :
    process_command env rate (process_command env rate s (.play m sf)) (.play m sf) =
      { process_command env rate s (.play m sf) with is_playing := true } ∧
    (s.last_midi_path ≠ some m →
      (process_command env rate s (.play m sf)).samples_played = 0 ∧
      (process_command env rate s (.play m sf)).playback_index = 0 ∧
      (process_command env rate s (.play m sf)).playback_events =
        (build_playback_schedule_from_smf smf rate).events) := by
  have hb : build_playback_schedule env m rate =
      some (build_playback_schedule_from_smf smf rate) := by
    rw [build_playback_schedule, hmidi]; rfl
  by_cases hr : should_reload s m sf = true
  · rw [play_reload_success env rate s m sf _ hr hb]
    constructor
    · rw [play_resume]
      simp [should_reload, List.isEmpty_eq_false, hne]
    · intro _
      exact ⟨rfl, rfl, rfl⟩
  · have hr' : should_reload s m sf = false := by
      revert hr; cases should_reload s m sf <;> simp
    have hmid : s.last_midi_path = some m := by
      by_contra hc
      have : should_reload s m sf = true := by
        simp [should_reload, hc]
      rw [this] at hr'; cases hr'
    rw [play_resume env rate s m sf hr']
    constructor
    · rw [play_resume]
      revert hr'
      simp [should_reload]
    · intro hc
      exact absurd hmid hc

set_option maxRecDepth 100000 in
unseal Rat.mul Rat.add Rat.sub Rat.inv in
/-- Counterexample for C3 as stated: empty.mid decodes successfully but
compiles to an empty schedule, so the second of two consecutive Play
commands with the identical loaded pair and no intervening command
re-triggers a reload through the empty-schedule arm of should_reload:
it resets samples_played (which had advanced to 3) back to 0 instead of
resuming in place with the cursor retained. -/
theorem c3_counterexample :
    engine_empty.last_midi_path = some "empty.mid" ∧
    engine_empty.last_soundfont_path = some "f.sf2" ∧
    engine_empty.playback_events = [] ∧
    should_reload engine_empty "empty.mid" "f.sf2" = true ∧
    engine_empty.samples_played = 3 ∧
    (process_command env_empty 100 engine_empty (.play "empty.mid" "f.sf2")).samples_played = 0 := by
  decide

unseal Rat.mul Rat.add Rat.sub Rat.inv in
/-- Witness for C3: from a fresh engine, a first Play of good.mid loads
and starts, and an immediately repeated Play leaves the state identical
apart from re-asserting the play flag. -/
theorem c3_witness :
    process_command env_w 100 (process_command env_w 100 (init_engine 100) (.play "good.mid" "f.sf2"))
        (.play "good.mid" "f.sf2") =
      { process_command env_w 100 (init_engine 100) (.play "good.mid" "f.sf2") with
        is_playing := true } ∧
    (process_command env_w 100 (init_engine 100) (.play "good.mid" "f.sf2")).samples_played = 0 ∧
    (process_command env_w 100 (init_engine 100) (.play "good.mid" "f.sf2")).playback_index = 0 ∧
    (process_command env_w 100 (init_engine 100) (.play "good.mid" "f.sf2")).playback_events =
      (build_playback_schedule_from_smf smf_w 100).events := by
  have h := c3_theorem env_w 100 (init_engine 100) "good.mid" "f.sf2" smf_w rfl (by decide)
  exact ⟨h.1, h.2 (by decide)⟩

/-- C8: Pause clears the play flag and sends the all-notes-off burst,
and nothing else: the soundfont stays installed (controller reset only,
not a full engine reset), the schedule, cursor, samples_played and all
telemetry fields are retained, a frame rendered while paused changes
nothing, and a later Play with the loaded pair resumes in place. -/
theorem c8_theorem (env : Env) (rate : Nat) (s : EngineState) (m sf : String) :
    process_command env rate s .pause =
      { s with is_playing := false, synth := send_all_notes_off s.synth } ∧
    render_frame (process_command env rate s .pause) = process_command env rate s .pause ∧
    (process_command env rate s .pause).synth.font = s.synth.font ∧
    (process_command env rate s .pause).synth.sent = s.synth.sent ++ all_notes_off_events ∧
    (s.last_midi_path = some m → s.last_soundfont_path = some sf → s.playback_events ≠ [] →
      process_command env rate (process_command env rate s .pause) (.play m sf) =
        { process_command env rate s .pause with is_playing := true }) := by
  refine ⟨rfl, rfl, rfl, rfl, fun h1 h2 h3 => ?_⟩
  rw [play_resume]
  simp [should_reload, process_command, send_all_notes_off, h1, h2,
    List.isEmpty_eq_false, h3]

/-- Witness for C8: pausing the concrete playing state and then
replaying its loaded pair resumes in place. -/
theorem c8_witness :
    process_command env_fail 100 (process_command env_fail 100 engine_playing .pause)
        (.play "a.mid" "f.sf2") =
      { process_command env_fail 100 engine_playing .pause with is_playing := true } :=
  (c8_theorem env_fail 100 engine_playing "a.mid" "f.sf2").2.2.2.2 rfl rfl (by decide)

/-- C9: Rewind resets samples_played and the dispatch index to 0 and
performs exactly the full synth reset of Stop (a fresh synth with the
previously loaded soundfont reloaded), while leaving the play flag as
it was; the schedule and telemetry fields are untouched. -/
theorem c9_theorem (env : Env) (rate : Nat) (s : EngineState) :
    process_command env rate s .rewind =
      { s with samples_played := 0, playback_index := 0,
               synth := hard_reset_synth env rate s.last_soundfont_path } ∧
    (process_command env rate s .rewind).synth = (process_command env rate s .stop).synth ∧
    (process_command env rate s .rewind).is_playing = s.is_playing ∧
    (process_command env rate s .rewind).playback_events = s.playback_events :=
  ⟨rfl, rfl, rfl, rfl⟩

/-- C6 (amended): whenever the position queries return a value, the
current tick lies in [0, max_tick] and the ratio lies in [0, 1]; and
when samples_played equals last_event_sample and last_event_tick does
not exceed max_tick, the queries return exactly last_event_tick and
last_event_tick / max_tick.  (Without the added bound the final clamp
can return max_tick instead of last_event_tick.) -/
theorem c6_theorem (st : AudioState) (hmax : st.max_tick ≠ 0) :
    (∃ t, st.current_tick = some t ∧ t ≤ st.max_tick) ∧
    (∃ r, st.current_tick_ratio_q = some r ∧ 0 ≤ r ∧ r ≤ 1) ∧
    (st.samples_played = st.last_event_sample → st.last_event_tick ≤ st.max_tick →
      st.current_tick = some st.last_event_tick ∧
      st.current_tick_ratio_q = some ((st.last_event_tick : ℚ) / (st.max_tick : ℚ))) := by
  refine ⟨⟨min (interp_tick st) st.max_tick, ?_, min_le_right _ _⟩,
    ⟨max 0 (min (((interp_tick st : Nat) : ℚ) / (st.max_tick : ℚ)) 1), ?_,
     le_max_left _ _, max_le (by norm_num) (min_le_right _ _)⟩, ?_⟩
  · simp [AudioState.current_tick, hmax]
  · simp [AudioState.current_tick_ratio_q, hmax]
  · intro hs hle
    have hinterp : interp_tick st = st.last_event_tick := by
      unfold interp_tick
      split
      case isTrue h =>
        have h0 : st.samples_played - st.last_event_sample = 0 := by omega
        simp only [h0, Nat.cast_zero, zero_div]
        rw [min_eq_left (by norm_num : (0 : ℚ) ≤ 1), max_self, zero_mul, add_zero,
          round_natCast, Int.toNat_natCast]
      case isFalse h => rfl
    have hpos : (0 : ℚ) < (st.max_tick : ℚ) := by
      exact_mod_cast Nat.pos_of_ne_zero hmax
    have hdiv1 : ((st.last_event_tick : ℚ)) / (st.max_tick : ℚ) ≤ 1 :=
      (div_le_one hpos).mpr (by exact_mod_cast hle)
    have hdiv0 : (0 : ℚ) ≤ ((st.last_event_tick : ℚ)) / (st.max_tick : ℚ) :=
      div_nonneg (Nat.cast_nonneg _) (le_of_lt hpos)
    constructor
    · simp [AudioState.current_tick, hmax, hinterp, min_eq_left hle]
    · simp [AudioState.current_tick_ratio_q, hmax, hinterp, min_eq_left hdiv1,
        max_eq_right hdiv0]

/-- Witness for C6: on a concrete snapshot resting on its last event
with last_event_tick within the ruler, both queries return the exact
last event position. -/
theorem c6_witness :
    st_c6_w.current_tick = some st_c6_w.last_event_tick ∧
    st_c6_w.current_tick_ratio_q =
      some ((st_c6_w.last_event_tick : ℚ) / (st_c6_w.max_tick : ℚ)) :=
  (c6_theorem st_c6_w (by decide)).2.2 rfl (by decide)

unseal Rat.mul Rat.add Rat.sub Rat.inv in
/-- Counterexample for C6 as stated: on a snapshot with
samples_played = last_event_sample but last_event_tick above max_tick,
current_tick returns the clamp max_tick rather than last_event_tick,
and the ratio query returns 1 rather than last_event_tick / max_tick. -/
theorem c6_counterexample :
    st_c6.samples_played = st_c6.last_event_sample ∧
    st_c6.max_tick ≠ 0 ∧
    st_c6.current_tick ≠ some st_c6.last_event_tick ∧
    st_c6.current_tick_ratio_q ≠
      some ((st_c6.last_event_tick : ℚ) / (st_c6.max_tick : ℚ)) := by
  decide

/-- C10: in parse_smf note accounting, a NoteOn with velocity 0 has
exactly the effect of a NoteOff on the same key (same active-note
stacks and same max_note_tick), velocity-positive NoteOns push the
current tick onto the key stack, and the velocity-0 case pops the most
recently opened note when one exists, contributing the current tick to
max_note_tick, and never opens a note. -/
theorem c10_theorem (g : ParseAcc) (t : TrackAcc) (channel : Nat) (key : Fin 128) (d : Nat) :
    ((process_track_event (g, t) { delta := d, kind := .midi channel (.note_on key 0) }).2.active_notes =
       (process_track_event (g, t) { delta := d, kind := .midi channel (.note_off key 0) }).2.active_notes ∧
     (process_track_event (g, t) { delta := d, kind := .midi channel (.note_on key 0) }).1.max_note_tick =
       (process_track_event (g, t) { delta := d, kind := .midi channel (.note_off key 0) }).1.max_note_tick) ∧
    (∀ vel, 0 < vel →
      (process_track_event (g, t) { delta := d, kind := .midi channel (.note_on key vel) }).2.active_notes key =
        (t.current_tick + d) :: t.active_notes key ∧
      (process_track_event (g, t) { delta := d, kind := .midi channel (.note_on key vel) }).1.max_note_tick =
        max g.max_note_tick (t.current_tick + d)) ∧
    (match t.active_notes key with
     | [] =>
       (process_track_event (g, t) { delta := d, kind := .midi channel (.note_on key 0) }).2.active_notes key =
         [] ∧
       (process_track_event (g, t) { delta := d, kind := .midi channel (.note_on key 0) }).1.max_note_tick =
         g.max_note_tick
     | _ :: rest =>
       (process_track_event (g, t) { delta := d, kind := .midi channel (.note_on key 0) }).2.active_notes key =
         rest ∧
       (process_track_event (g, t) { delta := d, kind := .midi channel (.note_on key 0) }).1.max_note_tick =
         max g.max_note_tick (t.current_tick + d)) := by
  refine ⟨?_, fun vel hv => ?_, ?_⟩
  · cases hact : t.active_notes key <;> simp [process_track_event, hact]
  · simp [process_track_event, hv, Function.update_same]
  · cases hact : t.active_notes key <;> simp [process_track_event, hact, Function.update_same]

/-- Witness for C10: on the concrete mid-track state, a NoteOn of
velocity 1 at delta 3 opens a note at tick 13, while a NoteOn of
velocity 0 pops the open note at tick 5 and records tick 13 as a
note-closing tick. -/
theorem c10_witness :
    (process_track_event (g_c10, t_c10) { delta := 3, kind := .midi 0 (.note_on 60 1) }).2.active_notes 60 =
      (t_c10.current_tick + 3) :: t_c10.active_notes 60 ∧
    (process_track_event (g_c10, t_c10) { delta := 3, kind := .midi 0 (.note_on 60 0) }).2.active_notes 60 =
      [] ∧
    (process_track_event (g_c10, t_c10) { delta := 3, kind := .midi 0 (.note_on 60 0) }).1.max_note_tick =
      max g_c10.max_note_tick (t_c10.current_tick + 3) := by
  have h := c10_theorem g_c10 t_c10 0 60 3
  refine ⟨(h.2.1 1 (by decide)).1, ?_⟩
  have h3 := h.2.2
  rw [show t_c10.active_notes 60 = [5] from by decide] at h3
  exact h3

/-- Dispatch loop contract: the dispatch cursor advances by some k
events, the final last-event pair is dominated by every still-pending
event, and it is either the initial pair or the pair of some consumed
event of the suffix. -/
theorem dispatch_due_events_spec (cur : Nat) (rest : List MidiPlaybackEvent) :
    ∀ (index lastS lastT : Nat) (synth : Synth),
    rest.Pairwise (fun a b => a.sample ≤ b.sample ∧ a.tick ≤ b.tick) →
    (∀ e ∈ rest, lastS ≤ e.sample ∧ lastT ≤ e.tick) →
    ∃ k,
      (dispatch_due_events cur rest index lastS lastT synth).1 = index + k ∧
      (∀ e ∈ rest.drop k,
        (dispatch_due_events cur rest index lastS lastT synth).2.1 ≤ e.sample ∧
        (dispatch_due_events cur rest index lastS lastT synth).2.2.1 ≤ e.tick) ∧
      (((dispatch_due_events cur rest index lastS lastT synth).2.1 = lastS ∧
        (dispatch_due_events cur rest index lastS lastT synth).2.2.1 = lastT) ∨
       ∃ e ∈ rest,
         (dispatch_due_events cur rest index lastS lastT synth).2.1 = e.sample ∧
         (dispatch_due_events cur rest index lastS lastT synth).2.2.1 = e.tick) := by
  induction rest with
  | nil =>
    intro index lastS lastT synth _ _
    exact ⟨0, rfl, by simp [dispatch_due_events], Or.inl ⟨rfl, rfl⟩⟩
  | cons e tl ih =>
    intro index lastS lastT synth hpair hle
    by_cases hcur : e.sample ≤ cur
    · have heq : dispatch_due_events cur (e :: tl) index lastS lastT synth =
          dispatch_due_events cur tl (index + 1) e.sample e.tick (synth.send e.event) := by
        rw [dispatch_due_events, if_pos hcur]
      have hhead : ∀ e' ∈ tl, e.sample ≤ e'.sample ∧ e.tick ≤ e'.tick :=
        (List.pairwise_cons.mp hpair).1
      obtain ⟨k, h1, h2, h3⟩ :=
        ih (index + 1) e.sample e.tick (synth.send e.event) hpair.of_cons hhead
      refine ⟨k + 1, by rw [heq, h1]; omega, ?_, ?_⟩
      · intro e' he'
        rw [heq]
        exact h2 e' (by rwa [List.drop_succ_cons] at he')
      · rcases h3 with ⟨ha, hb⟩ | ⟨e', he', ha, hb⟩
        · exact Or.inr ⟨e, List.mem_cons_self e tl, by rw [heq]; exact ⟨ha, hb⟩⟩
        · exact Or.inr ⟨e', List.mem_cons_of_mem e he', by rw [heq]; exact ⟨ha, hb⟩⟩
    · have heq : dispatch_due_events cur (e :: tl) index lastS lastT synth =
          (index, lastS, lastT, synth) := by
        rw [dispatch_due_events, if_neg hcur]
      refine ⟨0, by rw [heq, Nat.add_zero], ?_, Or.inl (by rw [heq]; exact ⟨rfl, rfl⟩)⟩
      intro e' he'
      rw [heq]
      exact hle e' (by simpa using he')

/-- One render frame preserves the telemetry invariant on a well-formed
schedule. -/
theorem render_frame_inv (s : EngineState) (hok : ScheduleOK s) (hinv : TelemetryInv s) :
    TelemetryInv (render_frame s) := by
  cases hp : s.is_playing
  case false =>
    rw [render_frame, if_neg (by rw [hp]; exact Bool.false_ne_true)]
    exact hinv
  case true =>
    obtain ⟨hcorr, hls, hlt⟩ := hinv
    have hpair : (s.playback_events.drop s.playback_index).Pairwise
        (fun a b => a.sample ≤ b.sample ∧ a.tick ≤ b.tick) :=
      List.Pairwise.sublist (List.drop_sublist _ _) hok.1
    have hle : ∀ e ∈ s.playback_events.drop s.playback_index,
        s.last_event_sample ≤ e.sample ∧ s.last_event_tick ≤ e.tick := by
      intro e he
      cases hr : s.playback_events.drop s.playback_index with
      | nil => rw [hr] at he; cases he
      | cons e0 tl =>
        rw [next_telemetry, hr] at hcorr
        have hn1 : s.next_event_sample = e0.sample := congrArg Prod.fst hcorr
        have hn2 : s.next_event_tick = e0.tick := congrArg Prod.snd hcorr
        rw [hr] at he
        rcases List.mem_cons.mp he with rfl | htl
        · exact ⟨hn1 ▸ hls, hn2 ▸ hlt⟩
        · have h0 := (List.pairwise_cons.mp (hr ▸ hpair)).1 e htl
          exact ⟨le_trans (hn1 ▸ hls) h0.1, le_trans (hn2 ▸ hlt) h0.2⟩
    obtain ⟨k, hk1, hk2, hk3⟩ := dispatch_due_events_spec s.samples_played
      (s.playback_events.drop s.playback_index) s.playback_index
      s.last_event_sample s.last_event_tick s.synth hpair hle
    rw [render_frame, if_pos hp]
    set D := dispatch_due_events s.samples_played
      (s.playback_events.drop s.playback_index) s.playback_index
      s.last_event_sample s.last_event_tick s.synth with hD
    have hdrop : s.playback_events.drop D.1 =
        (s.playback_events.drop s.playback_index).drop k := by
      rw [hk1, List.drop_drop]
    refine ⟨rfl, ?_⟩
    show D.2.1 ≤ (next_telemetry s.playback_events D.1 s.total_samples s.max_tick).1 ∧
      D.2.2.1 ≤ (next_telemetry s.playback_events D.1 s.total_samples s.max_tick).2
    rw [next_telemetry, hdrop]
    cases hdk : (s.playback_events.drop s.playback_index).drop k with
    | cons e1 tl1 =>
      exact hk2 e1 (hdk ▸ List.mem_cons_self e1 tl1)
    | nil =>
      have hlast_bound : s.last_event_sample ≤ s.total_samples ∧
          s.last_event_tick ≤ s.max_tick := by
        cases hr : s.playback_events.drop s.playback_index with
        | nil =>
          rw [next_telemetry, hr] at hcorr
          have hn1 : s.next_event_sample = s.total_samples := congrArg Prod.fst hcorr
          have hn2 : s.next_event_tick = s.max_tick := congrArg Prod.snd hcorr
          exact ⟨hn1 ▸ hls, hn2 ▸ hlt⟩
        | cons e0 tl =>
          rw [next_telemetry, hr] at hcorr
          have hn1 : s.next_event_sample = e0.sample := congrArg Prod.fst hcorr
          have hn2 : s.next_event_tick = e0.tick := congrArg Prod.snd hcorr
          have hmem : e0 ∈ s.playback_events :=
            List.mem_of_mem_drop (by rw [hr]; exact List.mem_cons_self e0 tl)
          have hb := hok.2 e0 hmem
          exact ⟨le_trans (hn1 ▸ hls) hb.1, le_trans (hn2 ▸ hlt) hb.2⟩
      rcases hk3 with ⟨ha, hb⟩ | ⟨e', he', ha, hb⟩
      · rw [ha, hb]
        exact hlast_bound
      · have hmem : e' ∈ s.playback_events := List.mem_of_mem_drop he'
        have hbd := hok.2 e' hmem
        rw [ha, hb]
        exact hbd

/-- C7 (amended): for schedules that are sorted and whose every event
lies within total_samples and ruler_max_tick, the telemetry invariant
(next-event fields agree with the pending event and dominate the
last-event fields in both domains) is established by a successful
reloading Play, preserved by every render frame, and preserved by
Pause.  As stated the claim is false: Rewind and Stop leave stale
telemetry, and events compiled beyond total_samples (possible for
non-note events after the last note) violate it at exhaustion. -/
theorem c7_theorem (env : Env) (rate : Nat) (s : EngineState) (m sf : String) (smf : Smf) :
    (env.midi m = some smf → should_reload s m sf = true →
      TelemetryInv (process_command env rate s (.play m sf))) ∧
    (ScheduleOK s → TelemetryInv s → TelemetryInv (render_frame s)) ∧
    (TelemetryInv s → TelemetryInv (process_command env rate s .pause)) := by
  refine ⟨fun hm hr => ?_, fun hok hinv => render_frame_inv s hok hinv, fun hinv => hinv⟩
  have hb : build_playback_schedule env m rate =
      some (build_playback_schedule_from_smf smf rate) := by
    rw [build_playback_schedule, hm]; rfl
  rw [play_reload_success env rate s m sf _ hr hb]
  exact ⟨rfl, Nat.zero_le _, Nat.zero_le _⟩

unseal Rat.mul Rat.add Rat.sub Rat.inv in
/-- Witness for C7: loading smf_c7 establishes the invariant, and it is
preserved by a frame and by Pause from the loaded state. -/
theorem c7_witness :
    TelemetryInv (process_command env_w 100 (init_engine 100) (.play "good.mid" "f.sf2")) ∧
    TelemetryInv (render_frame engine_w) ∧
    TelemetryInv (process_command env_w 100 engine_w .pause) :=
  ⟨(c7_theorem env_w 100 (init_engine 100) "good.mid" "f.sf2" smf_w).1 rfl (by decide),
   (c7_theorem env_w 100 engine_w "good.mid" "f.sf2" smf_w).2.1 (by decide) (by decide),
   (c7_theorem env_w 100 engine_w "good.mid" "f.sf2" smf_w).2.2 (by decide)⟩

unseal Rat.mul Rat.add Rat.sub Rat.inv in
/-- Counterexample for C7 as stated: after the reachable run of eleven
render frames on the loaded smf_c7 the schedule is non-empty, yet the
published next-event fields (total_samples 5, ruler 48) are strictly
below the last-event fields (sample 10, tick 96). -/
theorem c7_counterexample :
    run_c7.playback_events ≠ [] ∧
    run_c7.next_event_sample < run_c7.last_event_sample ∧
    run_c7.next_event_tick < run_c7.last_event_tick := by
  decide

/-- The maximum of a list with a new head. -/
theorem list_max_cons (a : Nat) (l : List Nat) : list_max (a :: l) = max a (list_max l) := rfl

/-- The maximum of a concatenation. -/
theorem list_max_append (l1 l2 : List Nat) :
    list_max (l1 ++ l2) = max (list_max l1) (list_max l2) := by
  induction l1 with
  | nil => simp [list_max]
  | cons a l ih =>
    simp only [List.cons_append]
    rw [list_max_cons, list_max_cons, ih]
    omega

/-- The maximum of a list with one appended element. -/
theorem list_max_append_singleton (l : List Nat) (a : Nat) :
    list_max (l ++ [a]) = max (list_max l) a := by
  rw [list_max_append]
  have : list_max [a] = max a 0 := rfl
  omega

/-- The maximum of a nonempty constant list. -/
theorem list_max_map_const_cons {α : Type} (x : α) (l : List α) (c : Nat) :
    list_max ((x :: l).map (fun _ => c)) = c := by
  induction l with
  | nil =>
    show max c 0 = c
    omega
  | cons b l ih =>
    show max c (list_max ((x :: l).map (fun _ => c))) = c
    rw [ih]
    omega

/-- The flattened active-note table is empty exactly when every key
stack is empty. -/
theorem flat_active_empty_iff (a : Fin 128 → List Nat) :
    (List.finRange 128).flatMap a = [] ↔ ∀ k, a k = [] := by
  rw [List.flatMap_eq_nil_iff]
  exact ⟨fun h k => h k (List.mem_finRange k), fun h k _ => h k⟩

/-- The dangling-note check of process_track is false exactly when
every key stack is empty. -/
theorem active_all_empty_iff (a : Fin 128 → List Nat) :
    ((List.finRange 128).any (fun key => !(a key).isEmpty) = false) ↔ ∀ k, a k = [] := by
  simp [List.any_eq_false, List.mem_finRange]

set_option maxHeartbeats 1000000 in
/-- Lockstep induction over one track: the code-side fold of parse_smf
and the specification-side closing machine agree on the current tick
and the active stacks, the code max_note_tick is bracketed between the
maximum closing tick collected so far and that maximum joined with the
current tick (collapsing to the former when no note is open), and the
code max_tick accumulates the maximum absolute event tick. -/
theorem track_lockstep (track : List TrackEvent) :
    ∀ (g : ParseAcc) (t : TrackAcc) (ss : SpecNoteState) (M : Nat),
    t.current_tick = ss.ct →
    t.last_tick = ss.ct →
    t.active_notes = ss.active →
    max M (list_max ss.closes) ≤ g.max_note_tick →
    g.max_note_tick ≤ max (max M (list_max ss.closes)) ss.ct →
    ((∀ k, ss.active k = []) → g.max_note_tick ≤ max M (list_max ss.closes)) →
    (track.foldl process_track_event (g, t)).2.current_tick =
        (track.foldl spec_close_step ss).ct ∧
    (track.foldl process_track_event (g, t)).2.last_tick =
        (track.foldl spec_close_step ss).ct ∧
    (track.foldl process_track_event (g, t)).2.active_notes =
        (track.foldl spec_close_step ss).active ∧
    max M (list_max (track.foldl spec_close_step ss).closes) ≤
        (track.foldl process_track_event (g, t)).1.max_note_tick ∧
    (track.foldl process_track_event (g, t)).1.max_note_tick ≤
        max (max M (list_max (track.foldl spec_close_step ss).closes))
          (track.foldl spec_close_step ss).ct ∧
    ((∀ k, (track.foldl spec_close_step ss).active k = []) →
        (track.foldl process_track_event (g, t)).1.max_note_tick ≤
          max M (list_max (track.foldl spec_close_step ss).closes)) ∧
    (track.foldl process_track_event (g, t)).1.max_tick =
        max g.max_tick (list_max (spec_abs_ticks_aux ss.ct track)) := by
  induction track with
  | nil =>
    intro g t ss M h1 h2 h3 h4 h5 h6
    refine ⟨h1, h2, h3, h4, h5, h6, ?_⟩
    show _ = max g.max_tick (list_max [])
    show g.max_tick = max g.max_tick 0
    omega
  | cons ev rest ih =>
    intro g t ss M h1 h2 h3 h4 h5 h6
    simp only [List.foldl_cons]
    have habs : spec_abs_ticks_aux ss.ct (ev :: rest) =
        (ss.ct + ev.delta) :: spec_abs_ticks_aux (ss.ct + ev.delta) rest := rfl
    cases hk : ev.kind with
    | meta_tempo us =>
      have hg : process_track_event (g, t) ev =
          ({ g with max_tick := max g.max_tick (t.current_tick + ev.delta),
                    tempo_events := g.tempo_events ++ [(t.current_tick + ev.delta, us)] },
           { t with current_tick := t.current_tick + ev.delta,
                    last_tick := t.current_tick + ev.delta }) := by
        simp [process_track_event, hk]
      have hs : spec_close_step ss ev = { ss with ct := ss.ct + ev.delta } := by
        simp [spec_close_step, hk]
      rw [hg, hs]
      obtain ⟨e1, e2, e3, e4, e5, e6, e7⟩ :=
        ih ({ g with max_tick := max g.max_tick (t.current_tick + ev.delta),
                     tempo_events := g.tempo_events ++ [(t.current_tick + ev.delta, us)] })
          ({ t with current_tick := t.current_tick + ev.delta,
                    last_tick := t.current_tick + ev.delta })
          ({ ss with ct := ss.ct + ev.delta }) M
          (by simp [h1]) (by simp [h1]) h3 h4 (by simp; omega) h6
      refine ⟨e1, e2, e3, e4, e5, e6, ?_⟩
      rw [e7, habs, list_max_cons, h1]
      simp
      omega
    | meta_other =>
      have hg : process_track_event (g, t) ev =
          ({ g with max_tick := max g.max_tick (t.current_tick + ev.delta) },
           { t with current_tick := t.current_tick + ev.delta,
                    last_tick := t.current_tick + ev.delta }) := by
        simp [process_track_event, hk]
      have hs : spec_close_step ss ev = { ss with ct := ss.ct + ev.delta } := by
        simp [spec_close_step, hk]
      rw [hg, hs]
      obtain ⟨e1, e2, e3, e4, e5, e6, e7⟩ :=
        ih ({ g with max_tick := max g.max_tick (t.current_tick + ev.delta) })
          ({ t with current_tick := t.current_tick + ev.delta,
                    last_tick := t.current_tick + ev.delta })
          ({ ss with ct := ss.ct + ev.delta }) M
          (by simp [h1]) (by simp [h1]) h3 h4 (by simp; omega) h6
      refine ⟨e1, e2, e3, e4, e5, e6, ?_⟩
      rw [e7, habs, list_max_cons, h1]
      simp
      omega
    | midi channel message =>
      cases message with
      | note_off key vel =>
        cases hact : t.active_notes key with
        | nil =>
          have hact' : ss.active key = [] := by rw [← h3]; exact hact
          obtain ⟨e1, e2, e3, e4, e5, e6, e7⟩ :=
            ih (process_track_event (g, t) ev).1 (process_track_event (g, t) ev).2
              (spec_close_step ss ev) M
              (by simp [process_track_event, spec_close_step, hk, hact, hact', h1])
              (by simp [process_track_event, spec_close_step, hk, hact, hact', h1])
              (by simp [process_track_event, spec_close_step, hk, hact, hact', h3])
              (by simp [process_track_event, spec_close_step, hk, hact, hact']; omega)
              (by simp [process_track_event, spec_close_step, hk, hact, hact']; omega)
              (by simp [process_track_event, spec_close_step, hk, hact, hact']
                  intro hall
                  have h7 := h6 hall
                  omega)
          refine ⟨e1, e2, e3, e4, e5, e6, ?_⟩
          rw [e7]
          have hs : (spec_close_step ss ev).ct = ss.ct + ev.delta := by
            simp [spec_close_step, hk, hact']
          have hgx : (process_track_event (g, t) ev).1.max_tick =
              max g.max_tick (ss.ct + ev.delta) := by
            simp [process_track_event, hk, hact, h1]
          rw [hs, hgx, habs, list_max_cons]
          omega
        | cons x rest' =>
          have hact' : ss.active key = x :: rest' := by rw [← h3]; exact hact
          obtain ⟨e1, e2, e3, e4, e5, e6, e7⟩ :=
            ih (process_track_event (g, t) ev).1 (process_track_event (g, t) ev).2
              (spec_close_step ss ev) M
              (by simp [process_track_event, spec_close_step, hk, hact, hact', h1])
              (by simp [process_track_event, spec_close_step, hk, hact, hact', h1])
              (by simp [process_track_event, spec_close_step, hk, hact, hact', h3])
              (by simp [process_track_event, spec_close_step, hk, hact, hact',
                    list_max_append_singleton, h1]; omega)
              (by simp [process_track_event, spec_close_step, hk, hact, hact',
                    list_max_append_singleton, h1]; omega)
              (by simp [process_track_event, spec_close_step, hk, hact, hact',
                    list_max_append_singleton, h1]; intro _; omega)
          refine ⟨e1, e2, e3, e4, e5, e6, ?_⟩
          rw [e7]
          have hs : (spec_close_step ss ev).ct = ss.ct + ev.delta := by
            simp [spec_close_step, hk, hact']
          have hgx : (process_track_event (g, t) ev).1.max_tick =
              max g.max_tick (ss.ct + ev.delta) := by
            simp [process_track_event, hk, hact, h1]
          rw [hs, hgx, habs, list_max_cons]
          omega
      | note_on key vel =>
        by_cases hv : 0 < vel
        · obtain ⟨e1, e2, e3, e4, e5, e6, e7⟩ :=
            ih (process_track_event (g, t) ev).1 (process_track_event (g, t) ev).2
              (spec_close_step ss ev) M
              (by simp [process_track_event, spec_close_step, hk, hv, h1])
              (by simp [process_track_event, spec_close_step, hk, hv, h1])
              (by simp [process_track_event, spec_close_step, hk, hv, h3, h1])
              (by simp [process_track_event, spec_close_step, hk, hv]; omega)
              (by simp [process_track_event, spec_close_step, hk, hv, h1]; omega)
              (by intro hall
                  have hcontra := hall key
                  simp [spec_close_step, hk, hv, Function.update_same] at hcontra)
          refine ⟨e1, e2, e3, e4, e5, e6, ?_⟩
          rw [e7]
          have hs : (spec_close_step ss ev).ct = ss.ct + ev.delta := by
            simp [spec_close_step, hk, hv]
          have hgx : (process_track_event (g, t) ev).1.max_tick =
              max g.max_tick (ss.ct + ev.delta) := by
            simp [process_track_event, hk, hv, h1]
          rw [hs, hgx, habs, list_max_cons]
          omega
        · cases hact : t.active_notes key with
          | nil =>
            have hact' : ss.active key = [] := by rw [← h3]; exact hact
            obtain ⟨e1, e2, e3, e4, e5, e6, e7⟩ :=
              ih (process_track_event (g, t) ev).1 (process_track_event (g, t) ev).2
                (spec_close_step ss ev) M
                (by simp [process_track_event, spec_close_step, hk, hv, hact, hact', h1])
                (by simp [process_track_event, spec_close_step, hk, hv, hact, hact', h1])
                (by simp [process_track_event, spec_close_step, hk, hv, hact, hact', h3])
                (by simp [process_track_event, spec_close_step, hk, hv, hact, hact']; omega)
                (by simp [process_track_event, spec_close_step, hk, hv, hact, hact']; omega)
                (by simp [process_track_event, spec_close_step, hk, hv, hact, hact']
                    intro hall
                    have h7 := h6 hall
                    omega)
            refine ⟨e1, e2, e3, e4, e5, e6, ?_⟩
            rw [e7]
            have hs : (spec_close_step ss ev).ct = ss.ct + ev.delta := by
              simp [spec_close_step, hk, hv, hact']
            have hgx : (process_track_event (g, t) ev).1.max_tick =
                max g.max_tick (ss.ct + ev.delta) := by
              simp [process_track_event, hk, hv, hact, h1]
            rw [hs, hgx, habs, list_max_cons]
            omega
          | cons x rest' =>
            have hact' : ss.active key = x :: rest' := by rw [← h3]; exact hact
            obtain ⟨e1, e2, e3, e4, e5, e6, e7⟩ :=
              ih (process_track_event (g, t) ev).1 (process_track_event (g, t) ev).2
                (spec_close_step ss ev) M
                (by simp [process_track_event, spec_close_step, hk, hv, hact, hact', h1])
                (by simp [process_track_event, spec_close_step, hk, hv, hact, hact', h1])
                (by simp [process_track_event, spec_close_step, hk, hv, hact, hact', h3])
                (by simp [process_track_event, spec_close_step, hk, hv, hact, hact',
                      list_max_append_singleton, h1]; omega)
                (by simp [process_track_event, spec_close_step, hk, hv, hact, hact',
                      list_max_append_singleton, h1]; omega)
                (by simp [process_track_event, spec_close_step, hk, hv, hact, hact',
                      list_max_append_singleton, h1]; intro _; omega)
            refine ⟨e1, e2, e3, e4, e5, e6, ?_⟩
            rw [e7]
            have hs : (spec_close_step ss ev).ct = ss.ct + ev.delta := by
              simp [spec_close_step, hk, hv, hact']
            have hgx : (process_track_event (g, t) ev).1.max_tick =
                max g.max_tick (ss.ct + ev.delta) := by
              simp [process_track_event, hk, hv, hact, h1]
            rw [hs, hgx, habs, list_max_cons]
            omega
      | aftertouch key vel =>
        obtain ⟨e1, e2, e3, e4, e5, e6, e7⟩ :=
          ih (process_track_event (g, t) ev).1 (process_track_event (g, t) ev).2
            (spec_close_step ss ev) M
            (by simp [process_track_event, spec_close_step, hk, h1])
            (by simp [process_track_event, spec_close_step, hk, h1])
            (by simp [process_track_event, spec_close_step, hk, h3])
            (by simp [process_track_event, spec_close_step, hk]; omega)
            (by simp [process_track_event, spec_close_step, hk]; omega)
            (by simp [process_track_event, spec_close_step, hk]
                intro hall
                have h7 := h6 hall
                omega)
        refine ⟨e1, e2, e3, e4, e5, e6, ?_⟩
        rw [e7]
        have hs : (spec_close_step ss ev).ct = ss.ct + ev.delta := by
          simp [spec_close_step, hk]
        have hgx : (process_track_event (g, t) ev).1.max_tick =
            max g.max_tick (ss.ct + ev.delta) := by
          simp [process_track_event, hk, h1]
        rw [hs, hgx, habs, list_max_cons]
        omega
      | controller c v =>
        obtain ⟨e1, e2, e3, e4, e5, e6, e7⟩ :=
          ih (process_track_event (g, t) ev).1 (process_track_event (g, t) ev).2
            (spec_close_step ss ev) M
            (by simp [process_track_event, spec_close_step, hk, h1])
            (by simp [process_track_event, spec_close_step, hk, h1])
            (by simp [process_track_event, spec_close_step, hk, h3])
            (by simp [process_track_event, spec_close_step, hk]; omega)
            (by simp [process_track_event, spec_close_step, hk]; omega)
            (by simp [process_track_event, spec_close_step, hk]
                intro hall
                have h7 := h6 hall
                omega)
        refine ⟨e1, e2, e3, e4, e5, e6, ?_⟩
        rw [e7]
        have hs : (spec_close_step ss ev).ct = ss.ct + ev.delta := by
          simp [spec_close_step, hk]
        have hgx : (process_track_event (g, t) ev).1.max_tick =
            max g.max_tick (ss.ct + ev.delta) := by
          simp [process_track_event, hk, h1]
        rw [hs, hgx, habs, list_max_cons]
        omega
      | program_change p =>
        obtain ⟨e1, e2, e3, e4, e5, e6, e7⟩ :=
          ih (process_track_event (g, t) ev).1 (process_track_event (g, t) ev).2
            (spec_close_step ss ev) M
            (by simp [process_track_event, spec_close_step, hk, h1])
            (by simp [process_track_event, spec_close_step, hk, h1])
            (by simp [process_track_event, spec_close_step, hk, h3])
            (by simp [process_track_event, spec_close_step, hk]; omega)
            (by simp [process_track_event, spec_close_step, hk]; omega)
            (by simp [process_track_event, spec_close_step, hk]
                intro hall
                have h7 := h6 hall
                omega)
        refine ⟨e1, e2, e3, e4, e5, e6, ?_⟩
        rw [e7]
        have hs : (spec_close_step ss ev).ct = ss.ct + ev.delta := by
          simp [spec_close_step, hk]
        have hgx : (process_track_event (g, t) ev).1.max_tick =
            max g.max_tick (ss.ct + ev.delta) := by
          simp [process_track_event, hk, h1]
        rw [hs, hgx, habs, list_max_cons]
        omega
      | channel_aftertouch v =>
        obtain ⟨e1, e2, e3, e4, e5, e6, e7⟩ :=
          ih (process_track_event (g, t) ev).1 (process_track_event (g, t) ev).2
            (spec_close_step ss ev) M
            (by simp [process_track_event, spec_close_step, hk, h1])
            (by simp [process_track_event, spec_close_step, hk, h1])
            (by simp [process_track_event, spec_close_step, hk, h3])
            (by simp [process_track_event, spec_close_step, hk]; omega)
            (by simp [process_track_event, spec_close_step, hk]; omega)
            (by simp [process_track_event, spec_close_step, hk]
                intro hall
                have h7 := h6 hall
                omega)
        refine ⟨e1, e2, e3, e4, e5, e6, ?_⟩
        rw [e7]
        have hs : (spec_close_step ss ev).ct = ss.ct + ev.delta := by
          simp [spec_close_step, hk]
        have hgx : (process_track_event (g, t) ev).1.max_tick =
            max g.max_tick (ss.ct + ev.delta) := by
          simp [process_track_event, hk, h1]
        rw [hs, hgx, habs, list_max_cons]
        omega
      | pitch_bend b =>
        obtain ⟨e1, e2, e3, e4, e5, e6, e7⟩ :=
          ih (process_track_event (g, t) ev).1 (process_track_event (g, t) ev).2
            (spec_close_step ss ev) M
            (by simp [process_track_event, spec_close_step, hk, h1])
            (by simp [process_track_event, spec_close_step, hk, h1])
            (by simp [process_track_event, spec_close_step, hk, h3])
            (by simp [process_track_event, spec_close_step, hk]; omega)
            (by simp [process_track_event, spec_close_step, hk]; omega)
            (by simp [process_track_event, spec_close_step, hk]
                intro hall
                have h7 := h6 hall
                omega)
        refine ⟨e1, e2, e3, e4, e5, e6, ?_⟩
        rw [e7]
        have hs : (spec_close_step ss ev).ct = ss.ct + ev.delta := by
          simp [spec_close_step, hk]
        have hgx : (process_track_event (g, t) ev).1.max_tick =
            max g.max_tick (ss.ct + ev.delta) := by
          simp [process_track_event, hk, h1]
        rw [hs, hgx, habs, list_max_cons]
        omega

/-- One track of parse_smf: max_note_tick grows by exactly the maximum
note-closing tick of the track (dangling notes closing at the final
event tick), and max_tick by the maximum absolute event tick. -/
theorem process_track_spec (g : ParseAcc) (track : List TrackEvent) :
    (process_track g track).max_note_tick =
      max g.max_note_tick (list_max (spec_track_closings track)) ∧
    (process_track g track).max_tick =
      max g.max_tick (list_max (spec_abs_ticks_aux 0 track)) := by
  obtain ⟨e1, e2, e3, e4, e5, e6, e7⟩ :=
    track_lockstep track g
      { current_tick := 0, last_tick := 0, active_notes := fun _ => [] }
      { ct := 0, active := fun _ => [], closes := [] } g.max_note_tick
      rfl rfl rfl
      (by show max g.max_note_tick (list_max []) ≤ g.max_note_tick
          have h0 : list_max ([] : List Nat) = 0 := rfl
          omega)
      (by show g.max_note_tick ≤ max (max g.max_note_tick (list_max [])) 0
          have h0 : list_max ([] : List Nat) = 0 := rfl
          omega)
      (fun _ => by
          show g.max_note_tick ≤ max g.max_note_tick (list_max [])
          have h0 : list_max ([] : List Nat) = 0 := rfl
          omega)
  set r := track.foldl process_track_event
    (g, ({ current_tick := 0, last_tick := 0, active_notes := fun _ => [] } : TrackAcc)) with hr
  set st := track.foldl spec_close_step
    ({ ct := 0, active := fun _ => [], closes := [] } : SpecNoteState) with hst
  have hpt : process_track g track =
      (if (List.finRange 128).any (fun key => !(r.2.active_notes key).isEmpty)
       then { r.1 with max_note_tick := max r.1.max_note_tick r.2.last_tick }
       else r.1) := rfl
  have hstc : spec_track_closings track =
      st.closes ++ (((List.finRange 128).flatMap st.active).map (fun _ => st.ct)) := rfl
  rw [hpt, hstc]
  by_cases hany : (List.finRange 128).any (fun key => !(r.2.active_notes key).isEmpty) = true
  · have hne : ¬ ∀ k, st.active k = [] := by
      intro hall
      have hfalse : (List.finRange 128).any (fun key => !(r.2.active_notes key).isEmpty) = false :=
        (active_all_empty_iff r.2.active_notes).mpr (fun k => by rw [e3]; exact hall k)
      rw [hfalse] at hany
      cases hany
    obtain ⟨y, ys, hys⟩ : ∃ y ys, (List.finRange 128).flatMap st.active = y :: ys := by
      cases hf : (List.finRange 128).flatMap st.active with
      | nil => exact absurd ((flat_active_empty_iff st.active).mp hf) hne
      | cons y ys => exact ⟨y, ys, rfl⟩
    have hclos : list_max (st.closes ++
        (((List.finRange 128).flatMap st.active).map (fun _ => st.ct))) =
        max (list_max st.closes) st.ct := by
      rw [list_max_append, hys, list_max_map_const_cons]
    rw [if_pos hany, hclos]
    constructor
    · show max r.1.max_note_tick r.2.last_tick = _
      rw [e2]
      omega
    · show r.1.max_tick = _
      exact e7
  · have hfe : (List.finRange 128).any (fun key => !(r.2.active_notes key).isEmpty) = false := by
      revert hany
      cases (List.finRange 128).any (fun key => !(r.2.active_notes key).isEmpty) <;> simp
    have hall : ∀ k, st.active k = [] := by
      intro k
      rw [← e3]
      exact (active_all_empty_iff r.2.active_notes).mp hfe k
    have hflat : (List.finRange 128).flatMap st.active = [] :=
      (flat_active_empty_iff st.active).mpr hall
    rw [if_neg hany, hflat]
    have hmap : (([] : List Nat).map (fun _ => st.ct)) = [] := rfl
    rw [hmap, List.append_nil]
    refine ⟨?_, e7⟩
    have h8 := e6 hall
    omega

/-- parse_smf computes exactly the specification quantities: its
max_note_tick is the maximum note-closing tick and its max_tick is the
maximum raw event tick. -/
theorem parse_smf_spec (smf : Smf) :
    (parse_smf smf).max_note_tick = spec_max_closing smf ∧
    (parse_smf smf).max_tick = spec_max_raw_tick smf := by
  have main : ∀ (tracks : List (List TrackEvent)) (g : ParseAcc),
      (tracks.foldl process_track g).max_note_tick =
        max g.max_note_tick (list_max (tracks.flatMap spec_track_closings)) ∧
      (tracks.foldl process_track g).max_tick =
        max g.max_tick (list_max (tracks.flatMap (spec_abs_ticks_aux 0))) := by
    intro tracks
    induction tracks with
    | nil =>
      intro g
      have h0 : list_max ([] : List Nat) = 0 := rfl
      constructor
      · show g.max_note_tick = max g.max_note_tick (list_max [])
        omega
      · show g.max_tick = max g.max_tick (list_max [])
        omega
    | cons tr rest ih =>
      intro g
      simp only [List.foldl_cons, List.flatMap_cons]
      obtain ⟨p1, p2⟩ := process_track_spec g tr
      obtain ⟨q1, q2⟩ := ih (process_track g tr)
      constructor
      · rw [q1, p1, list_max_append]
        omega
      · rw [q2, p2, list_max_append]
        omega
  have h := main smf.tracks { all_events := [], tempo_events := [], max_tick := 0, max_note_tick := 0 }
  constructor
  · show (smf.tracks.foldl process_track
      { all_events := [], tempo_events := [], max_tick := 0, max_note_tick := 0 }).max_note_tick = _
    rw [h.1]
    unfold spec_max_closing
    show max 0 _ = _
    omega
  · show (smf.tracks.foldl process_track
      { all_events := [], tempo_events := [], max_tick := 0, max_note_tick := 0 }).max_tick = _
    rw [h.2]
    unfold spec_max_raw_tick
    show max 0 _ = _
    omega

/-- C2 (amended): for every compiled schedule, ruler_max_tick is the
maximum note-closing tick when that maximum is positive, and the
maximum raw event tick otherwise.  (The claim as stated keys the choice
on the presence of notes; the code keys it on the positivity of the
maximum note-closing tick, which differs when all notes close at
tick 0.) -/
theorem c2_theorem (smf : Smf) (sample_rate : Nat) :
    (build_playback_schedule_from_smf smf sample_rate).ruler_max_tick =
      if 0 < spec_max_closing smf then spec_max_closing smf else spec_max_raw_tick smf := by
  obtain ⟨h1, h2⟩ := parse_smf_spec smf
  have hdef : (build_playback_schedule_from_smf smf sample_rate).ruler_max_tick =
      if 0 < (parse_smf smf).max_note_tick then (parse_smf smf).max_note_tick
      else (parse_smf smf).max_tick := rfl
  rw [hdef, h1, h2]

set_option maxRecDepth 10000 in
unseal Rat.mul Rat.add Rat.sub Rat.inv in
/-- Counterexample for C2 as stated: smf_c2 contains a note, so the
claim predicts ruler_max_tick = maximum note-closing tick = 0, but the
code produces the maximum raw event tick 100. -/
theorem c2_counterexample :
    contains_note smf_c2 = true ∧
    spec_max_closing smf_c2 = 0 ∧
    (build_playback_schedule_from_smf smf_c2 48000).ruler_max_tick = 100 := by
  decide
